import Mathlib

/-!
Verification of the django-mitre route/view composition and faceted-filtering
subsystem against its specification.

The development shallowly embeds the code of
`src/django_mitre/core/views/base.py`, `src/django_mitre/core/utils/url.py`
and `src/django_mitre/attack/views.py`.  Filter criteria travel through URLs
as JSON tokens produced by Python's `json.dumps` (default options:
`ensure_ascii=True`, separators `", "` and `": "`) and are read back by the
filter form's JSON decoding.  The `Json` type below models the JSON values
such criteria take (integers rather than floats for the numeric case), and
`Json.dumpChars` / `parseValue` model the serializer and the decoder.
-/

deriving instance DecidableEq for Except

namespace DjangoMitre

mutual

/-- A JSON value as produced and consumed by the filter-state codec. -/
inductive Json where
  | null : Json
  | bool (b : Bool) : Json
  | num (n : Int) : Json
  | str (s : List Char) : Json
  | arr (items : JsonList) : Json
  | obj (members : JsonObj) : Json
deriving DecidableEq

/-- A list of JSON values (elements of a JSON array). -/
inductive JsonList where
  | nil : JsonList
  | cons (head : Json) (tail : JsonList) : JsonList
deriving DecidableEq

/-- The members of a JSON object, in order. -/
inductive JsonObj where
  | nil : JsonObj
  | cons (key : List Char) (value : Json) (tail : JsonObj) : JsonObj
deriving DecidableEq

end

/-- Lowercase hexadecimal digit character for a value below 16,
as used by Python's `ensure_ascii` escaping. -/
def hexDigitChar (d : Nat) : Char :=
  if d < 10 then Char.ofNat (48 + d) else Char.ofNat (87 + d)

/-- Value of a hexadecimal digit character (either case), if it is one. -/
def hexCharVal (c : Char) : Option Nat :=
  if 48 ≤ c.toNat ∧ c.toNat ≤ 57 then some (c.toNat - 48)
  else if 97 ≤ c.toNat ∧ c.toNat ≤ 102 then some (c.toNat - 87)
  else if 65 ≤ c.toNat ∧ c.toNat ≤ 70 then some (c.toNat - 55)
  else none

/-- Four lowercase hex digits for a value below 2^16 (the `xxxx` of a
Python `\uxxxx` escape). -/
def toHex4 (n : Nat) : List Char :=
  [hexDigitChar (n / 4096 % 16), hexDigitChar (n / 256 % 16),
   hexDigitChar (n / 16 % 16), hexDigitChar (n % 16)]

/-- Combined value of four hex digit characters. -/
def hex4Val (a b c d : Char) : Option Nat :=
  match hexCharVal a, hexCharVal b, hexCharVal c, hexCharVal d with
  | some x, some y, some z, some w => some (x * 4096 + y * 256 + z * 16 + w)
  | _, _, _, _ => none

/-- Value of a decimal digit character, if it is one. -/
def digitVal (c : Char) : Option Nat :=
  if 48 ≤ c.toNat ∧ c.toNat ≤ 57 then some (c.toNat - 48) else none

/-- Decimal digits of a natural number, most significant first,
as Python's `repr` of a nonnegative `int` prints them. -/
def natDigits (n : Nat) : List Char :=
  if n < 10 then [Char.ofNat (48 + n)]
  else natDigits (n / 10) ++ [Char.ofNat (48 + n % 10)]
termination_by n
decreasing_by exact Nat.div_lt_self (by omega) (by omega)

/-- Decimal digits of a Python `int`, a leading minus sign included. -/
def intChars (n : Int) : List Char :=
  if n < 0 then '-' :: natDigits n.natAbs else natDigits n.natAbs

/-- The escape `json.dumps` (with its default `ensure_ascii=True`) emits for
one character of a string: the two-character named escapes, `\uxxxx` for other
characters outside printable ASCII, a surrogate pair for astral characters,
and the character itself otherwise. -/
def escapeChar (c : Char) : List Char :=
  if c = '"' then ['\\', '"']
  else if c = '\\' then ['\\', '\\']
  else if c.toNat = 8 then ['\\', 'b']
  else if c.toNat = 9 then ['\\', 't']
  else if c.toNat = 10 then ['\\', 'n']
  else if c.toNat = 12 then ['\\', 'f']
  else if c.toNat = 13 then ['\\', 'r']
  else if c.toNat < 32 ∨ 127 ≤ c.toNat then
    if c.toNat < 65536 then '\\' :: 'u' :: toHex4 c.toNat
    else
      '\\' :: 'u' :: toHex4 (55296 + (c.toNat - 65536) / 1024) ++
      '\\' :: 'u' :: toHex4 (56320 + (c.toNat - 65536) % 1024)
  else [c]

/-- Serialized body of a JSON string (everything between the quotes). -/
def strBodyChars : List Char → List Char
  | [] => []
  | c :: cs => escapeChar c ++ strBodyChars cs

mutual

/-- The characters `json.dumps` produces for a value, with its default
separators `", "` and `": "`. -/
def Json.dumpChars : Json → List Char
  | .null => "null".data
  | .bool true => "true".data
  | .bool false => "false".data
  | .num n => intChars n
  | .str s => '"' :: (strBodyChars s ++ ['"'])
  | .arr items => '[' :: (JsonList.dumpChars items ++ [']'])
  | .obj members => '{' :: (JsonObj.dumpChars members ++ ['}'])

/-- Serialized array elements, joined by `", "`. -/
def JsonList.dumpChars : JsonList → List Char
  | .nil => []
  | .cons x tl => Json.dumpChars x ++ JsonList.dumpSep tl

/-- Serialized continuation of an array: the `", "` separator before each
further element. -/
def JsonList.dumpSep : JsonList → List Char
  | .nil => []
  | .cons y tl => ',' :: ' ' :: (Json.dumpChars y ++ JsonList.dumpSep tl)

/-- Serialized object members, joined by `", "`, keys separated by `": "`. -/
def JsonObj.dumpChars : JsonObj → List Char
  | .nil => []
  | .cons k v tl =>
      '"' :: (strBodyChars k ++ '"' :: ':' :: ' ' :: (Json.dumpChars v ++ JsonObj.dumpSep tl))

/-- Serialized continuation of an object: the `", "` separator before each
further member. -/
def JsonObj.dumpSep : JsonObj → List Char
  | .nil => []
  | .cons k v tl =>
      ',' :: ' ' :: '"' ::
        (strBodyChars k ++ '"' :: ':' :: ' ' :: (Json.dumpChars v ++ JsonObj.dumpSep tl))

end

/-- The JSON string `json.dumps` produces for a value. -/
def Json.dumps (j : Json) : String := String.mk j.dumpChars

/-- Whitespace as `json.loads` skips it. -/
def isWsChar (c : Char) : Bool := c = ' ' || c = '\t' || c = '\n' || c = '\r'

/-- Drop leading JSON whitespace. -/
def skipWs : List Char → List Char
  | [] => []
  | c :: cs => if isWsChar c then skipWs cs else c :: cs

/-- The character a two-character string escape stands for, if the second
character is a legal escape letter. -/
def unescapeChar (e : Char) : Option Char :=
  if e = '"' then some '"'
  else if e = '\\' then some '\\'
  else if e = '/' then some '/'
  else if e = 'b' then some (Char.ofNat 8)
  else if e = 't' then some (Char.ofNat 9)
  else if e = 'n' then some (Char.ofNat 10)
  else if e = 'f' then some (Char.ofNat 12)
  else if e = 'r' then some (Char.ofNat 13)
  else none

/-- Decode the low half of a surrogate pair: a second `\uxxxx` escape whose
value lies in the low-surrogate range, combined with the pending high
surrogate `n`. -/
def decodeLowSur (n : Nat) : List Char → Option (Char × Nat)
  | e1 :: e2 :: a :: b :: c :: d :: _ =>
    if e1 = '\\' ∧ e2 = 'u' then
      (hex4Val a b c d).bind (fun m =>
        if 56320 ≤ m ∧ m < 57344 then
          some (Char.ofNat (65536 + (n - 55296) * 1024 + (m - 56320)), 11)
        else none)
    else none
  | _ => none

/-- Decode one string escape, the characters after the backslash given.
Returns the decoded character and how many input characters were consumed:
`1` for a named escape, `5` for a `\uxxxx` escape, `11` for a surrogate
pair. -/
def decodeEsc : List Char → Option (Char × Nat)
  | [] => none
  | e :: cs =>
    if e = 'u' then
      match cs with
      | a :: b :: c :: d :: cs2 =>
        (hex4Val a b c d).bind (fun n =>
          if n < 55296 ∨ 57344 ≤ n then some (Char.ofNat n, 5)
          else if n < 56320 then decodeLowSur n cs2
          else none)
      | _ => none
    else (unescapeChar e).map (fun u => (u, 1))

/-- Decode the body of a JSON string up to its closing quote, handling the
named escapes, `\uxxxx` escapes and surrogate pairs, and returning the decoded
characters together with the unconsumed input. -/
def parseJStr : List Char → Option (List Char × List Char)
  | [] => none
  | c :: cs =>
    if c = '"' then some ([], cs)
    else if c = '\\' then
      (decodeEsc cs).bind (fun p =>
        (parseJStr (cs.drop p.2)).map (fun q => (p.1 :: q.1, q.2)))
    else (parseJStr cs).map (fun q => (c :: q.1, q.2))
termination_by input => input.length
decreasing_by
  · simp only [List.length_cons, List.length_drop]
    omega
  · simp only [List.length_cons]
    omega

/-- Accumulate further decimal digits of a number literal. -/
def parseDigitsLoop (acc : Nat) : List Char → Nat × List Char
  | [] => (acc, [])
  | c :: cs =>
    match digitVal c with
    | some d => parseDigitsLoop (acc * 10 + d) cs
    | none => (acc, c :: cs)

/-- Parse a nonnegative decimal number literal (at least one digit). -/
def parseNat : List Char → Option (Nat × List Char)
  | [] => none
  | c :: cs =>
    match digitVal c with
    | some d => some (parseDigitsLoop d cs)
    | none => none

/-- Consume an expected literal character sequence. -/
def dropLit : List Char → List Char → Option (List Char)
  | [], s => some s
  | l :: ls, c :: cs => if c = l then dropLit ls cs else none
  | _ :: _, [] => none

/-- Decode a scalar JSON value (string, number, or a keyword literal). -/
def parseScalar : List Char → Option (Json × List Char)
  | [] => none
  | c :: cs =>
    if c = '"' then (parseJStr cs).map (fun p => (Json.str p.1, p.2))
    else if c = 'n' then (dropLit ['u', 'l', 'l'] cs).map (fun r => (Json.null, r))
    else if c = 't' then (dropLit ['r', 'u', 'e'] cs).map (fun r => (Json.bool true, r))
    else if c = 'f' then (dropLit ['a', 'l', 's', 'e'] cs).map (fun r => (Json.bool false, r))
    else if c = '-' then (parseNat cs).map (fun p => (Json.num (-(p.1 : Int)), p.2))
    else (parseNat (c :: cs)).map (fun p => (Json.num (p.1 : Int), p.2))

/-- Expect a colon as the next character. -/
def expectColon : List Char → Option (List Char)
  | [] => none
  | c :: r => if c = ':' then some r else none

/-- Decode an object member's key string and the following colon. -/
def parseKeyColon : List Char → Option (List Char × List Char)
  | [] => none
  | c :: cs =>
    if c = '"' then
      (parseJStr cs).bind (fun p =>
        (expectColon (skipWs p.2)).map (fun r2 => (p.1, r2)))
    else none

mutual

/-- Fuel-bounded recursive-descent JSON value decoder modelling `json.loads`
as the filter form's token decoding uses it. -/
def parseValue : Nat → List Char → Option (Json × List Char)
  | 0, _ => none
  | fuel + 1, input => parseValueDispatch fuel (skipWs input)
termination_by fuel _ => (fuel, 9)

/-- Dispatch on the first significant character of a value. -/
def parseValueDispatch : Nat → List Char → Option (Json × List Char)
  | _, [] => none
  | fuel, c :: cs =>
    if c = '[' then parseArrBody fuel (skipWs cs)
    else if c = '{' then parseObjBody fuel (skipWs cs)
    else parseScalar (c :: cs)
termination_by fuel _ => (fuel, 4)

/-- Decode what follows an opening bracket: a closing bracket or the
elements of a nonempty array. -/
def parseArrBody : Nat → List Char → Option (Json × List Char)
  | _, [] => none
  | fuel, c :: cs =>
    if c = ']' then some (.arr .nil, cs)
    else (parseItems fuel (c :: cs)).map (fun p => (Json.arr p.1, p.2))
termination_by fuel _ => (fuel, 3)

/-- Decode what follows an opening brace: a closing brace or the members of
a nonempty object. -/
def parseObjBody : Nat → List Char → Option (Json × List Char)
  | _, [] => none
  | fuel, c :: cs =>
    if c = '}' then some (.obj .nil, cs)
    else (parseMembers fuel (c :: cs)).map (fun p => (Json.obj p.1, p.2))
termination_by fuel _ => (fuel, 3)

/-- Decode the elements of a nonempty JSON array, the closing bracket
included. -/
def parseItems : Nat → List Char → Option (JsonList × List Char)
  | 0, _ => none
  | fuel + 1, input =>
    (parseValue fuel input).bind (fun p => parseItemsTail fuel p.1 (skipWs p.2))
termination_by fuel _ => (fuel, 1)

/-- Decode, after one array element, either the separator and the remaining
elements or the closing bracket. -/
def parseItemsTail : Nat → Json → List Char → Option (JsonList × List Char)
  | _, _, [] => none
  | fuel, v, c :: r2 =>
    if c = ',' then
      (parseItems fuel (skipWs r2)).map (fun q => (JsonList.cons v q.1, q.2))
    else if c = ']' then some (.cons v .nil, r2)
    else none
termination_by fuel _ _ => (fuel, 2)

/-- Decode the members of a nonempty JSON object, the closing brace
included. -/
def parseMembers : Nat → List Char → Option (JsonObj × List Char)
  | 0, _ => none
  | fuel + 1, input =>
    (parseKeyColon input).bind (fun kp =>
      (parseValue fuel (skipWs kp.2)).bind (fun vp =>
        parseMembersTail fuel kp.1 vp.1 (skipWs vp.2)))
termination_by fuel _ => (fuel, 1)

/-- Decode, after one object member, either the separator and the remaining
members or the closing brace. -/
def parseMembersTail : Nat → List Char → Json → List Char → Option (JsonObj × List Char)
  | _, _, _, [] => none
  | fuel, k, v, c :: r4 =>
    if c = ',' then
      (parseMembers fuel (skipWs r4)).map (fun q => (JsonObj.cons k v q.1, q.2))
    else if c = '}' then some (.cons k v .nil, r4)
    else none
termination_by fuel _ _ _ => (fuel, 2)

end

/-- Decode a complete JSON document: one value, surrounded by nothing but
whitespace. -/
def loadsChars (cs : List Char) : Option Json :=
  (parseValue (cs.length + 1) cs).bind
    (fun p => if skipWs p.2 = [] then some p.1 else none)

/-- `json.loads` on a string, as the filter form decodes the `q` token. -/
def Json.loads (s : String) : Option Json := loadsChars s.data

/-- Does the input NOT begin with a decimal digit?  Number literals are the
one JSON form without a terminator, so the round-trip lemmas track that the
serialized value's continuation never starts with a digit. -/
def nonDigitStart : List Char → Bool
  | [] => true
  | c :: _ => (digitVal c).isNone

/-- Value accumulated by the digit loop over a digit sequence. -/
def digitsAccVal (acc : Nat) : List Char → Nat
  | [] => acc
  | c :: cs => digitsAccVal (acc * 10 + (digitVal c).getD 0) cs

/-- The power of ten matching the digit count of `natDigits n`. -/
def tenPow (n : Nat) : Nat :=
  if n < 10 then 10 else tenPow (n / 10) * 10
termination_by n
decreasing_by exact Nat.div_lt_self (by omega) (by omega)

mutual

/-- Fuel needed by `parseValue` for one value: one unit per recursive
parser invocation. -/
def Json.fsize : Json → Nat
  | .null => 1
  | .bool _ => 1
  | .num _ => 1
  | .str _ => 1
  | .arr items => 1 + items.fsize
  | .obj members => 1 + members.fsize

/-- Fuel needed for the elements of an array. -/
def JsonList.fsize : JsonList → Nat
  | .nil => 0
  | .cons x tl => 1 + x.fsize + tl.fsize

/-- Fuel needed for the members of an object. -/
def JsonObj.fsize : JsonObj → Nat
  | .nil => 0
  | .cons _ v tl => 1 + v.fsize + tl.fsize

end

/-- A character fit to begin a serialized value: not whitespace and not a
closing delimiter. -/
def goodHeadChar (c : Char) : Bool :=
  !isWsChar c && !(c = ']' : Bool) && !(c = '}' : Bool)

/-- Python truthiness of a decoded JSON value (`q if q else []`,
`if not filter_data`). -/
def Json.truthy : Json → Bool
  | .null => false
  | .bool b => b
  | .num n => decide (n ≠ 0)
  | .str s => decide (s ≠ [])
  | .arr .nil => false
  | .arr (.cons _ _) => true
  | .obj .nil => false
  | .obj (.cons _ _ _) => true

/-- A decoded token becomes the cleaned field value; an undecodable token is
a validation failure. -/
def loadsToCleaned : Option Json → Except String (Option Json)
  | some j => .ok (some j)
  | none => .error "Invalid filter criteria token"

/-- Modelled from the spec: `django_mitre/core/forms.py` is not under `src/`;
its `FilterForm` (the Filter State Codec's decode side) cleans the `q`
parameter per spec 4.1: a missing or empty parameter yields the empty
(absent) criteria, a malformed token is a validation failure, and a
well-formed token decodes to the structured criteria value. -/
def filterFormCleanQ : Option String → Except String (Option Json)
  | none => .ok none
  | some t => if t = "" then .ok none else loadsToCleaned (Json.loads t)

/-- `q if q else []`, wrapped around the form outcome: a validation failure
raises, an empty cleaned value becomes the empty criteria list. -/
def cleanedToFilters : Except String (Option Json) → Except String Json
  | .error e => .error ("Ran into form validation error? " ++ e)
  | .ok none => .ok (Json.arr .nil)
  | .ok (some j) => .ok (if j.truthy then j else Json.arr .nil)

/-- `BaseIndexView.get_filters`: run the `FilterForm` over `request.GET`,
raise on validation failure, and return `q if q else []`. -/
def get_filters (qparam : Option String) : Except String Json :=
  cleanedToFilters (filterFormCleanQ qparam)

/-- A stored record, with the two visibility flags the views consult. -/
structure MitreRecord where
  mitre_id : String
  name : String
  deprecated : Bool
  revoked : Bool
deriving DecidableEq

/-- `BaseIndexView.filter_queryset`: no filterset class means the queryset
passes through; empty decoded criteria skip filterset construction; otherwise
the filterset (modelled through the narrowing predicate it induces per the
Filterset Capability contract) narrows the queryset. -/
def filtersToQueryset (p : MitreRecord → Bool) (queryset : List MitreRecord) :
    Except String Json → Except String (List MitreRecord)
  | .error e => .error e
  | .ok fd => .ok (if fd.truthy then queryset.filter p else queryset)

def filter_queryset (filterset_pred : Option (MitreRecord → Bool))
    (qparam : Option String) (queryset : List MitreRecord) :
    Except String (List MitreRecord) :=
  match filterset_pred with
  | none => .ok queryset
  | some p => filtersToQueryset p queryset (get_filters qparam)

/-- `BaseIndexView.get_queryset`: exclude deprecated and revoked content,
then apply the user-supplied criteria. -/
def get_queryset (all_records : List MitreRecord)
    (filterset_pred : Option (MitreRecord → Bool)) (qparam : Option String) :
    Except String (List MitreRecord) :=
  filter_queryset filterset_pred qparam
    (all_records.filter (fun r => !r.deprecated && !r.revoked))

/-- Python `str.strip(chars)`: remove all leading and trailing characters
belonging to the set. -/
def pyStrip (s : String) (chars : List Char) : String :=
  String.mk (((s.data.dropWhile (fun c => c ∈ chars)).reverse.dropWhile
    (fun c => c ∈ chars)).reverse)

/-- The displayable fields `BaseIndexView` declares. -/
def base_index_fields : List String :=
  ["mitre_id", "name", "short_description", "collection"]

/-- `BaseIndexView.get_ordering`: only order by one field at a time; a
directive whose `strip("-")` result is not a declared field is dropped. -/
def get_ordering (fields : List String) (orderParam : Option String) :
    Option String :=
  match orderParam with
  | none => none
  | some field_name =>
    if field_name ≠ "" ∧ pyStrip field_name ['-'] ∉ fields then none
    else some field_name

/-- Outcome of Django's `SingleObjectMixin.get_object` queryset lookup. -/
inductive LookupOutcome where
  | found (r : MitreRecord)
  | notFound
  | multiple
deriving DecidableEq

/-- `queryset.get()`: exactly one match, none, or several. -/
def listToOutcome : List MitreRecord → LookupOutcome
  | [] => .notFound
  | [r] => .found r
  | _ :: _ :: _ => .multiple

/-- The lookup collaborator: `queryset.filter(slug_field=slug).get()`. -/
def djangoGetBySlug (queryset : List MitreRecord) (slug : String) :
    LookupOutcome :=
  listToOutcome (queryset.filter (fun r => r.mitre_id = slug))

/-- The `except MultipleObjectsReturned` arm of `BaseDetailView.get_object`:
retry restricted to non-deprecated, non-revoked records; any other outcome
propagates. -/
def retryIfMultiple (records : List MitreRecord) (slug : String) :
    LookupOutcome → LookupOutcome
  | .multiple =>
      djangoGetBySlug (records.filter (fun r => !r.deprecated && !r.revoked)) slug
  | .found r => .found r
  | .notFound => .notFound

/-- `BaseDetailView.get_object`: look the record up without visibility
restriction, retrying once on a multiple-match. -/
def detail_get_object (records : List MitreRecord) (slug : String) :
    LookupOutcome :=
  retryIfMultiple records slug (djangoGetBySlug records slug)

/-- `BaseDetailView.get_title_suffix`. -/
def get_title_suffix (r : MitreRecord) : String :=
  if r.revoked then "[revoked]" else ""

/-- Characters `urllib.parse.quote_plus` never encodes. -/
def quotePlusSafe (c : Char) : Bool :=
  let n := c.toNat
  (65 ≤ n ∧ n ≤ 90) || (97 ≤ n ∧ n ≤ 122) || (48 ≤ n ∧ n ≤ 57) ||
    n = 95 || n = 46 || n = 45 || n = 126

/-- UTF-8 bytes of one character. -/
def utf8Bytes (c : Char) : List Nat :=
  let n := c.toNat
  if n < 128 then [n]
  else if n < 2048 then [192 + n / 64, 128 + n % 64]
  else if n < 65536 then [224 + n / 4096, 128 + n / 64 % 64, 128 + n % 64]
  else [240 + n / 262144, 128 + n / 4096 % 64, 128 + n / 64 % 64, 128 + n % 64]

/-- Uppercase hexadecimal digit, as `urllib.parse.quote` prints bytes. -/
def hexDigitUpper (d : Nat) : Char :=
  if d < 10 then Char.ofNat (48 + d) else Char.ofNat (55 + d)

/-- One percent-encoded byte. -/
def percentByte (b : Nat) : List Char :=
  ['%', hexDigitUpper (b / 16), hexDigitUpper (b % 16)]

/-- `urllib.parse.quote_plus` on one character. -/
def quotePlusChar (c : Char) : List Char :=
  if quotePlusSafe c then [c]
  else if c = ' ' then ['+']
  else ((utf8Bytes c).map percentByte).flatten

/-- `urllib.parse.quote_plus` on a string. -/
def quotePlus (s : String) : String :=
  String.mk (s.data.map quotePlusChar).flatten

/-- The serialized criteria token `FilterView.form_valid` computes:
`json.dumps(form.cleaned_data["q"])`. -/
def form_valid_qtoken (criteria : Json) : String := criteria.dumps

/-- `urlencode({"q": json.dumps(...)})` in `FilterView.form_valid`. -/
def form_valid_querystring (criteria : Json) : String :=
  "q=" ++ quotePlus (form_valid_qtoken criteria)

/-- The redirect URL `FilterView.form_valid` returns: the index URL, with
the querystring appended when it is nonempty. -/
def form_valid_url (index_url : String) (criteria : Json) : String :=
  if form_valid_querystring criteria ≠ "" then
    index_url ++ "?" ++ form_valid_querystring criteria
  else index_url

/-- `FlatFilteringFormViewMixin.get_success_url`: always appends the
querystring. -/
def flat_get_success_url (index_url : String) (query_data : Json) : String :=
  index_url ++ "?" ++ ("q=" ++ quotePlus query_data.dumps)

/-- The `q` parameter of the success URL as the subsequent index request's
`request.GET` presents it: the serving framework transports the
percent-encoded value and hands the decoded token back, so the decode side
receives the serialized token itself. -/
def form_valid_qparam (criteria : Json) : Option String :=
  some (form_valid_qtoken criteria)

/-- HTTP transport of a filter submission. -/
inductive HttpMethod where
  | get
  | post
deriving DecidableEq

/-- A request to the Filter-Entry Engine: the transport and the `q` value
carried by each parameter source. -/
structure FilterRequest where
  method : HttpMethod
  getQ : Option String
  postQ : Option String
deriving DecidableEq

/-- `FilterView.get_form_kwargs`: bind the form to `request.POST` on POST
and to `request.GET` on GET. -/
def filterView_form_data : FilterRequest → Option String
  | ⟨.post, _, p⟩ => p
  | ⟨.get, g, _⟩ => g

/-- The response of the composed `FilterView`. -/
inductive FilterViewResponse where
  | redirect (url : String)
  | render (form_data_valid : Bool)
deriving DecidableEq

/-- Is the cleaned form valid? -/
def cleanOk : Except String (Option Json) → Bool
  | .ok _ => true
  | .error _ => false

/-- The criteria value `form_valid` serializes: `form.cleaned_data["q"]`,
the Python `None` of an absent parameter serializing to `null`. -/
def cleanedCriteria : Option Json → Json
  | some j => j
  | none => Json.null

/-- `ProcessFormView.post` as inherited: a valid form redirects through
`form_valid`, an invalid one re-renders through `form_invalid`. -/
def postOutcome (index_url : String) :
    Except String (Option Json) → FilterViewResponse
  | .ok cleaned => .redirect (form_valid_url index_url (cleanedCriteria cleaned))
  | .error _ => .render false

/-- Request handling of the composed `FilterView`, the inherited Django
`FormView` dispatch included: `ProcessFormView.get` renders the page (the
bound form's validity shown through the context), while `ProcessFormView.post`
validates and branches into `form_valid` (redirect) or `form_invalid`
(re-render). -/
def filterView_handle (index_url : String) : FilterRequest → FilterViewResponse
  | ⟨.get, g, _⟩ => .render (cleanOk (filterFormCleanQ g))
  | ⟨.post, _, p⟩ => postOutcome index_url (filterFormCleanQ p)

/-- The hand-authored view classes an entity's `views` module exposes. -/
structure ViewsModule where
  index_view : Option String
  detail_view : Option String
deriving DecidableEq

/-- The modules route composition consults for one entity: the optional
`filters` module (inner option: the `<Entity>FilterSet` attribute) and the
`views` module. -/
structure AppModules where
  filters : Option (Option String)
  views : Option ViewsModule
deriving DecidableEq

/-- The filterset class a route ends up bound to. -/
inductive ResolvedFilterset where
  | handAuthored (name : String)
  | synthesized (fields : List String)
deriving DecidableEq

/-- The index view class a route ends up bound to. -/
inductive ResolvedIndexView where
  | custom (name : String)
  | genericListing
deriving DecidableEq

/-- The three endpoint definitions `produce_paths_for_model` emits. -/
structure RouteBundle where
  index_view : ResolvedIndexView
  detail_view : String
  filterset : ResolvedFilterset
  path_names : List String
deriving DecidableEq

/-- `getattr` on a gracefully imported `filters` module (the empty default
holds no attribute at all). -/
def app_filters_attr : Option (Option String) → Option String
  | some fs => fs
  | none => none

/-- Resolve `<Entity>IndexView`, falling back to the generic Listing
Engine. -/
def resolve_index_view : Option String → ResolvedIndexView
  | some n => .custom n
  | none => .genericListing

/-- Resolve `<Entity>FilterSet`, falling back to `filterset_factory` over
the entity's fields. -/
def resolve_filterset (entity_fields : List String) :
    Option String → ResolvedFilterset
  | some n => .handAuthored n
  | none => .synthesized entity_fields

/-- `produce_paths_for_model`: gracefully defaults a missing `filters`
module (`gracefully_import_module` with the empty default, on which the
`getattr` lookup yields nothing), asserts the `views` module, falls back to
the generic index view and the synthesized filterset, and requires the
detail view class (`getattr` without default). -/
def produce_paths_for_model (entity_fields : List String) (app : AppModules) :
    Except String RouteBundle :=
  match app.views with
  | none => .error "Missing views module"
  | some views =>
    match views.detail_view with
    | none => .error "Missing detail view class"
    | some d =>
      .ok { index_view := resolve_index_view views.index_view,
            detail_view := d,
            filterset := resolve_filterset entity_fields
              (app_filters_attr app.filters),
            path_names := ["index", "detail", "filter"] }

/-- The two class attributes `BaseIndexView.as_view` checks. -/
structure IndexViewClass where
  model : Option String
  filterset_class : Option String
deriving DecidableEq

/-- The `initkwargs` of `as_view`: the outer option records whether the key
is present at all, the inner one the (possibly `None`) value passed. -/
structure InitKwargs where
  model : Option (Option String)
  filterset_class : Option (Option String)
deriving DecidableEq

/-- `BaseIndexView.as_view`: `TypeError` when `cls.model is None` and
`"model" not in initkwargs`, likewise for `filterset_class`; otherwise the
view is built with the initkwargs values overriding the class attributes. -/
def index_as_view (cls : IndexViewClass) (initkwargs : InitKwargs) :
    Except String IndexViewClass :=
  if cls.model = none ∧ initkwargs.model = none then
    .error "requires the model be defined"
  else if cls.filterset_class = none ∧ initkwargs.filterset_class = none then
    .error "requires the filterset_class be defined"
  else
    .ok { model := match initkwargs.model with
            | some v => v
            | none => cls.model,
          filterset_class := match initkwargs.filterset_class with
            | some v => v
            | none => cls.filterset_class }

/-- The entity types of the att&ck app. -/
inductive AttackModel where
  | technique
  | tactic
  | software
  | group
  | mitigation
  | dataSource
  | campaign
deriving DecidableEq

/-- Is this a lowercase ASCII letter? -/
def isLowerAlpha (c : Char) : Bool := 97 ≤ c.toNat ∧ c.toNat ≤ 122

/-- Is this an ASCII letter? -/
def isAlphaChar (c : Char) : Bool :=
  (65 ≤ c.toNat ∧ c.toNat ≤ 90) || (97 ≤ c.toNat ∧ c.toNat ≤ 122)

/-- Uppercase one ASCII letter. -/
def upperChar (c : Char) : Char :=
  if isLowerAlpha c then Char.ofNat (c.toNat - 32) else c

/-- Lowercase one ASCII letter. -/
def lowerChar (c : Char) : Char :=
  if 65 ≤ c.toNat ∧ c.toNat ≤ 90 then Char.ofNat (c.toNat + 32) else c

/-- `re.sub("^([a-z]{1,2})", lambda m: m.group(0).upper(), mitre_id)`:
uppercase the leading run of lowercase letters, capped at two characters. -/
def upperLeadingLower (s : String) : String :=
  match s.data with
  | [] => s
  | [a] => if isLowerAlpha a then String.mk [upperChar a] else s
  | a :: b :: rest =>
    if isLowerAlpha a then
      if isLowerAlpha b then String.mk (upperChar a :: upperChar b :: rest)
      else String.mk (upperChar a :: b :: rest)
    else s

/-- Drop leading decimal digits. -/
def dropDigits : List Char → List Char
  | [] => []
  | c :: cs => if (digitVal c).isSome then dropDigits cs else c :: cs

/-- The identifier body after the letter prefix: one run of digits,
optionally followed by a dot and a second run of digits (sub-technique
identifiers). -/
def digitsShape (l : List Char) : Bool :=
  match l with
  | [] => false
  | c :: cs =>
    (digitVal c).isSome &&
      (match dropDigits cs with
       | [] => true
       | '.' :: c2 :: cs2 => (digitVal c2).isSome && (dropDigits cs2).isEmpty
       | _ => false)

/-- Case-insensitive match of a letter prefix, returning the remaining
characters. -/
def matchCi : List Char → List Char → Option (List Char)
  | [], rest => some rest
  | _ :: _, [] => none
  | p :: ps, c :: cs => if lowerChar c = p then matchCi ps cs else none

/-- The identifier schemes of the att&ck app, letter prefix first. -/
def idShapeTable : List (List Char × AttackModel) :=
  [(['t', 'a'], .tactic), (['t'], .technique), (['s'], .software),
   (['g'], .group), (['m'], .mitigation), (['d', 's'], .dataSource),
   (['c'], .campaign)]

/-- Modelled from the spec: `django_mitre/attack/utils.py` is not under
`src/`; its `get_model_by_id` determines the owning entity type from the
identifier's shape (spec section 6), accepting the free-form identifier's
letter prefix case-insensitively and requiring the digit body the scheme
prescribes. -/
def get_model_by_id (mitre_id : String) : Option AttackModel :=
  idShapeTable.findSome? (fun e =>
    match matchCi e.1 mitre_id.data with
    | some rest => if digitsShape rest then some e.2 else none
    | none => none)

/-- The response of the redirect-by-identifier endpoint. -/
inductive RedirectResponse where
  | badRequest (msg : String)
  | redirect (model : AttackModel) (target_id : String)
deriving DecidableEq

/-- Build the response from the matched entity type. -/
def modelToResponse (mitre_id : String) : Option AttackModel → RedirectResponse
  | none => .badRequest "No model found for this id scheme"
  | some m => .redirect m (upperLeadingLower mitre_id)

/-- `redirect_by_id`: client error when no scheme matches, otherwise a
redirect to the owning model's detail endpoint for the adjusted
identifier. -/
def redirect_by_id (mitre_id : String) : RedirectResponse :=
  modelToResponse mitre_id (get_model_by_id mitre_id)

/-- The canonicalization the spec describes: uppercase the identifier's
entire leading alphabetic run. -/
def upperLeadingAlphaRun (s : String) : String :=
  String.mk ((s.data.takeWhile isAlphaChar).map upperChar ++
    s.data.dropWhile isAlphaChar)

/-- The sort-directive normalization the spec describes: strip one leading
descending-marker. -/
def stripLeadingMarker (s : String) : String :=
  match s.data with
  | '-' :: t => String.mk t
  | _ => s

theorem toNat_ofNat_valid (m : Nat) (h : Nat.isValidChar m) :
    (Char.ofNat m).toNat = m := by
  unfold Char.ofNat
  rw [dif_pos h]
  rfl

theorem hexCharVal_hexDigitChar (d : Nat) (h : d < 16) :
    hexCharVal (hexDigitChar d) = some d := by
  interval_cases d <;> decide

theorem hex4Val_digits (n : Nat) (h : n < 65536) :
    hex4Val (hexDigitChar (n / 4096 % 16)) (hexDigitChar (n / 256 % 16))
      (hexDigitChar (n / 16 % 16)) (hexDigitChar (n % 16)) = some n := by
  unfold hex4Val
  rw [hexCharVal_hexDigitChar _ (by omega), hexCharVal_hexDigitChar _ (by omega),
    hexCharVal_hexDigitChar _ (by omega), hexCharVal_hexDigitChar _ (by omega)]
  simp only [Option.some.injEq]
  omega

theorem digitVal_bounds {c : Char} {d : Nat} (h : digitVal c = some d) :
    48 ≤ c.toNat ∧ c.toNat ≤ 57 ∧ d = c.toNat - 48 := by
  unfold digitVal at h
  split at h
  · rename_i hb
    exact ⟨hb.1, hb.2, (Option.some.injEq _ _ ▸ h).symm⟩
  · cases h

/-- A decimal digit character is none of the characters the value decoder
dispatches on, nor whitespace, nor a structural delimiter. -/
theorem digit_head_facts {c : Char} {d : Nat} (h : digitVal c = some d) :
    isWsChar c = false ∧ c ≠ '"' ∧ c ≠ '[' ∧ c ≠ '{' ∧ c ≠ 'n' ∧ c ≠ 't' ∧
    c ≠ 'f' ∧ c ≠ '-' ∧ c ≠ ']' ∧ c ≠ '}' ∧ c ≠ ',' ∧ c ≠ ':' := by
  obtain ⟨h1, h2, -⟩ := digitVal_bounds h
  refine ⟨?_, ?_, ?_, ?_, ?_, ?_, ?_, ?_, ?_, ?_, ?_, ?_⟩
  · by_contra hw
    rw [Bool.not_eq_false] at hw
    have : ((c = ' ' ∨ c = '\t') ∨ c = '\n') ∨ c = '\r' := by
      simpa [isWsChar] using hw
    rcases this with ((rfl | rfl) | rfl) | rfl <;> revert h1 h2 <;> decide
  all_goals (intro hc; rw [hc] at h1 h2; revert h1 h2; decide)

theorem skipWs_not_ws {c : Char} (h : isWsChar c = false) (cs : List Char) :
    skipWs (c :: cs) = c :: cs := by
  simp [skipWs, h]

theorem digitVal_ofNat_digit (k : Nat) (h : k < 10) :
    digitVal (Char.ofNat (48 + k)) = some k := by
  unfold digitVal
  rw [toNat_ofNat_valid _ (Or.inl (by omega))]
  rw [if_pos ⟨by omega, by omega⟩]
  congr 1
  omega

theorem natDigits_isSome (n : Nat) : ∀ c ∈ natDigits n, (digitVal c).isSome := by
  induction n using Nat.strong_induction_on with
  | _ n ih =>
    rw [natDigits]
    split
    · rename_i hlt
      intro c hc
      simp only [List.mem_singleton] at hc
      rw [hc, digitVal_ofNat_digit n hlt]
      rfl
    · rename_i hge
      intro c hc
      rcases List.mem_append.mp hc with h1 | h1
      · exact ih (n / 10) (Nat.div_lt_self (by omega) (by omega)) c h1
      · simp only [List.mem_singleton] at h1
        rw [h1, digitVal_ofNat_digit (n % 10) (Nat.mod_lt n (by omega))]
        rfl

theorem natDigits_ne_nil (n : Nat) : natDigits n ≠ [] := by
  rw [natDigits]
  split
  · simp
  · simp

theorem digitsAccVal_append (acc : Nat) (xs ys : List Char) :
    digitsAccVal acc (xs ++ ys) = digitsAccVal (digitsAccVal acc xs) ys := by
  induction xs generalizing acc with
  | nil => rfl
  | cons c cs ih =>
    simp only [List.cons_append, digitsAccVal]
    exact ih _

theorem digitsAccVal_natDigits (n : Nat) :
    ∀ acc, digitsAccVal acc (natDigits n) = acc * tenPow n + n := by
  induction n using Nat.strong_induction_on with
  | _ n ih =>
    intro acc
    rw [natDigits, tenPow]
    split
    · rename_i hlt
      simp only [digitsAccVal, digitVal_ofNat_digit n hlt, Option.getD_some]
    · rename_i hge
      rw [digitsAccVal_append, ih (n / 10) (Nat.div_lt_self (by omega) (by omega))]
      simp only [digitsAccVal, digitVal_ofNat_digit (n % 10) (Nat.mod_lt n (by omega)),
        Option.getD_some]
      have : 10 * (n / 10) + n % 10 = n := Nat.div_add_mod n 10
      ring_nf
      omega

theorem parseDigitsLoop_append (acc : Nat) (ds rest : List Char)
    (hd : ∀ c ∈ ds, (digitVal c).isSome)
    (hr : nonDigitStart rest = true) :
    parseDigitsLoop acc (ds ++ rest) = (digitsAccVal acc ds, rest) := by
  induction ds generalizing acc with
  | nil =>
    simp only [List.nil_append, digitsAccVal]
    cases rest with
    | nil => rfl
    | cons c cs =>
      have hno : digitVal c = none := by
        simpa [nonDigitStart, Option.isNone_iff_eq_none] using hr
      simp [parseDigitsLoop, hno]
  | cons c cs ih =>
    obtain ⟨d, hdv⟩ := Option.isSome_iff_exists.mp (hd c (by simp))
    simp only [List.cons_append, parseDigitsLoop, hdv, digitsAccVal, Option.getD_some]
    exact ih (acc * 10 + d) (fun x hx => hd x (by simp [hx]))

theorem char_toNat_valid (c : Char) :
    c.toNat < 55296 ∨ (57343 < c.toNat ∧ c.toNat < 1114112) := by
  have h := c.valid
  unfold UInt32.isValidChar Nat.isValidChar at h
  exact h

theorem parseJStr_cons_lit {c : Char} (h1 : c ≠ '"') (h2 : c ≠ '\\')
    (tl s' r' : List Char) (h : parseJStr tl = some (s', r')) :
    parseJStr (c :: tl) = some (c :: s', r') := by
  rw [parseJStr]
  rw [if_neg h1, if_neg h2, h, Option.map_some']

theorem parseJStr_esc {tl : List Char} {u : Char} {k : Nat}
    (hd : decodeEsc tl = some (u, k)) {s' r' : List Char}
    (h : parseJStr (tl.drop k) = some (s', r')) :
    parseJStr ('\\' :: tl) = some (u :: s', r') := by
  rw [parseJStr]
  rw [if_neg (by decide), if_pos rfl]
  simp only [hd, Option.some_bind, h, Option.map_some']

theorem decodeEsc_u (n : Nat) (hlt : n < 65536) (hval : n < 55296 ∨ 57344 ≤ n)
    (tl : List Char) :
    decodeEsc ('u' :: (toHex4 n ++ tl)) = some (Char.ofNat n, 5) := by
  simp only [toHex4, List.cons_append, List.nil_append]
  rw [decodeEsc]
  rw [if_pos rfl, hex4Val_digits n hlt, Option.some_bind]
  rw [if_pos hval]

theorem decodeEsc_surrogate (n : Nat) (hlo : 65536 ≤ n) (hhi : n < 1114112)
    (tl : List Char) :
    decodeEsc ('u' :: (toHex4 (55296 + (n - 65536) / 1024) ++
      ('\\' :: 'u' :: (toHex4 (56320 + (n - 65536) % 1024) ++ tl)))) =
      some (Char.ofNat n, 11) := by
  simp only [toHex4, List.cons_append, List.nil_append]
  rw [decodeEsc]
  rw [if_pos rfl]
  rw [hex4Val_digits (55296 + (n - 65536) / 1024) (by omega)]
  rw [Option.some_bind]
  rw [if_neg (by omega)]
  rw [if_pos (by omega)]
  rw [decodeLowSur]
  rw [if_pos ⟨rfl, rfl⟩]
  rw [hex4Val_digits (56320 + (n - 65536) % 1024) (by omega)]
  rw [Option.some_bind]
  rw [if_pos ⟨by omega, by omega⟩]
  have harith : 65536 + (55296 + (n - 65536) / 1024 - 55296) * 1024 +
      (56320 + (n - 65536) % 1024 - 56320) = n := by omega
  rw [harith]

/-- Decoding the serialized escape of one character, followed by any already
decodable continuation, prepends exactly that character. -/
theorem parseJStr_escapeChar (c : Char) (tl s' r' : List Char)
    (h : parseJStr tl = some (s', r')) :
    parseJStr (escapeChar c ++ tl) = some (c :: s', r') := by
  by_cases h1 : c = '"'
  · subst h1
    rw [escapeChar, if_pos rfl]
    exact parseJStr_esc (rfl : decodeEsc ('"' :: tl) = some ('"', 1)) h
  by_cases h2 : c = '\\'
  · subst h2
    rw [escapeChar, if_pos rfl]
    rw [if_neg (by decide)]
    exact parseJStr_esc (rfl : decodeEsc ('\\' :: tl) = some ('\\', 1)) h
  by_cases h3 : c.toNat = 8
  · rw [escapeChar, if_neg h1, if_neg h2, if_pos h3]
    have hc : Char.ofNat 8 = c := by rw [← h3, Char.ofNat_toNat]
    exact hc ▸ parseJStr_esc (rfl : decodeEsc ('b' :: tl) = some (Char.ofNat 8, 1)) h
  by_cases h4 : c.toNat = 9
  · rw [escapeChar, if_neg h1, if_neg h2, if_neg h3, if_pos h4]
    have hc : Char.ofNat 9 = c := by rw [← h4, Char.ofNat_toNat]
    exact hc ▸ parseJStr_esc (rfl : decodeEsc ('t' :: tl) = some (Char.ofNat 9, 1)) h
  by_cases h5 : c.toNat = 10
  · rw [escapeChar, if_neg h1, if_neg h2, if_neg h3, if_neg h4, if_pos h5]
    have hc : Char.ofNat 10 = c := by rw [← h5, Char.ofNat_toNat]
    exact hc ▸ parseJStr_esc (rfl : decodeEsc ('n' :: tl) = some (Char.ofNat 10, 1)) h
  by_cases h6 : c.toNat = 12
  · rw [escapeChar, if_neg h1, if_neg h2, if_neg h3, if_neg h4, if_neg h5, if_pos h6]
    have hc : Char.ofNat 12 = c := by rw [← h6, Char.ofNat_toNat]
    exact hc ▸ parseJStr_esc (rfl : decodeEsc ('f' :: tl) = some (Char.ofNat 12, 1)) h
  by_cases h7 : c.toNat = 13
  · rw [escapeChar, if_neg h1, if_neg h2, if_neg h3, if_neg h4, if_neg h5, if_neg h6,
      if_pos h7]
    have hc : Char.ofNat 13 = c := by rw [← h7, Char.ofNat_toNat]
    exact hc ▸ parseJStr_esc (rfl : decodeEsc ('r' :: tl) = some (Char.ofNat 13, 1)) h
  by_cases h8 : c.toNat < 32 ∨ 127 ≤ c.toNat
  · rw [escapeChar, if_neg h1, if_neg h2, if_neg h3, if_neg h4, if_neg h5, if_neg h6,
      if_neg h7, if_pos h8]
    by_cases h9 : c.toNat < 65536
    · rw [if_pos h9]
      have hval : c.toNat < 55296 ∨ 57344 ≤ c.toNat := by
        rcases char_toNat_valid c with hv | hv
        · exact Or.inl hv
        · exact Or.inr (by omega)
      have hdrop : ('u' :: (toHex4 c.toNat ++ tl)).drop 5 = tl := by
        simp [toHex4]
      refine Eq.mp ?_ (parseJStr_esc (decodeEsc_u c.toNat h9 hval tl)
        (hdrop ▸ h))
      rw [Char.ofNat_toNat]
      simp [toHex4]
    · rw [if_neg h9]
      have hlo : 65536 ≤ c.toNat := by omega
      have hhi : c.toNat < 1114112 := by
        rcases char_toNat_valid c with hv | hv
        · omega
        · exact hv.2
      have hdrop : ('u' :: (toHex4 (55296 + (c.toNat - 65536) / 1024) ++
          ('\\' :: 'u' :: (toHex4 (56320 + (c.toNat - 65536) % 1024) ++ tl)))).drop 11
          = tl := by
        simp [toHex4]
      refine Eq.mp ?_ (parseJStr_esc (decodeEsc_surrogate c.toNat hlo hhi tl)
        (hdrop ▸ h))
      rw [Char.ofNat_toNat]
      simp [toHex4]
  · rw [escapeChar, if_neg h1, if_neg h2, if_neg h3, if_neg h4, if_neg h5, if_neg h6,
      if_neg h7, if_neg h8]
    exact parseJStr_cons_lit h1 h2 tl s' r' h

/-- Round trip for string bodies: parsing the serialized body of a string,
the closing quote appended, recovers the characters and the trailing
input. -/
theorem parseJStr_strBody (s rest : List Char) :
    parseJStr (strBodyChars s ++ '"' :: rest) = some (s, rest) := by
  induction s with
  | nil =>
    rw [strBodyChars, List.nil_append, parseJStr, if_pos rfl]
  | cons c cs ih =>
    rw [strBodyChars, List.append_assoc]
    exact parseJStr_escapeChar c _ cs rest ih

theorem parseNat_natDigits (n : Nat) (rest : List Char)
    (hr : nonDigitStart rest = true) :
    parseNat (natDigits n ++ rest) = some (n, rest) := by
  cases hnd : natDigits n with
  | nil => exact absurd hnd (natDigits_ne_nil n)
  | cons c cs =>
    obtain ⟨d, hdv⟩ := Option.isSome_iff_exists.mp
      (natDigits_isSome n c (hnd ▸ List.mem_cons_self c cs))
    have hall : ∀ x ∈ cs, (digitVal x).isSome := fun x hx =>
      natDigits_isSome n x (hnd ▸ List.mem_cons_of_mem c hx)
    have hv : digitsAccVal 0 (natDigits n) = n := by
      rw [digitsAccVal_natDigits]
      omega
    rw [hnd] at hv
    simp only [digitsAccVal, hdv, Option.getD_some, Nat.zero_mul, Nat.zero_add] at hv
    simp only [List.cons_append, parseNat, hdv]
    rw [parseDigitsLoop_append d cs rest hall hr, hv]

theorem Json.fsize_pos (j : Json) : 1 ≤ j.fsize := by
  cases j <;> simp [Json.fsize]

theorem dumpListChars_cons (x : Json) (tl : JsonList) :
    JsonList.dumpChars (.cons x tl) = Json.dumpChars x ++ JsonList.dumpSep tl := by
  rw [JsonList.dumpChars]

theorem dumpListSep_cons (y : Json) (tl : JsonList) :
    JsonList.dumpSep (.cons y tl) =
      ',' :: ' ' :: (Json.dumpChars y ++ JsonList.dumpSep tl) := by
  rw [JsonList.dumpSep]

theorem dumpObjChars_cons (k : List Char) (v : Json) (tl : JsonObj) :
    JsonObj.dumpChars (.cons k v tl) =
      '"' :: (strBodyChars k ++ '"' :: ':' :: ' ' ::
        (Json.dumpChars v ++ JsonObj.dumpSep tl)) := by
  rw [JsonObj.dumpChars]

theorem dumpObjSep_cons (k : List Char) (v : Json) (tl : JsonObj) :
    JsonObj.dumpSep (.cons k v tl) =
      ',' :: ' ' :: '"' :: (strBodyChars k ++ '"' :: ':' :: ' ' ::
        (Json.dumpChars v ++ JsonObj.dumpSep tl)) := by
  rw [JsonObj.dumpSep]

theorem skipWs_ws {c : Char} (h : isWsChar c = true) (cs : List Char) :
    skipWs (c :: cs) = skipWs cs := by
  simp [skipWs, h]

theorem nonDigitStart_cons (c : Char) (z : List Char) :
    nonDigitStart (c :: z) = (digitVal c).isNone := rfl

theorem dropLit_append (l cs : List Char) : dropLit l (l ++ cs) = some cs := by
  induction l with
  | nil => rfl
  | cons x ls ih => rw [List.cons_append, dropLit, if_pos rfl, ih]

theorem goodHead_spec {c : Char} (h : goodHeadChar c = true) :
    isWsChar c = false ∧ c ≠ ']' ∧ c ≠ '}' := by
  simp only [goodHeadChar, Bool.and_eq_true, Bool.not_eq_true',
    decide_eq_false_iff_not] at h
  exact ⟨h.1.1, h.1.2, h.2⟩

/-- Every serialized value begins with a fit head character. -/
theorem dump_head_facts (j : Json) :
    ∃ c t, j.dumpChars = c :: t ∧ goodHeadChar c = true := by
  cases j with
  | num n =>
    rw [Json.dumpChars, intChars]
    by_cases hn : n < 0
    · rw [if_pos hn]
      exact ⟨_, _, rfl, by decide⟩
    · rw [if_neg hn]
      cases hnd : natDigits n.natAbs with
      | nil => exact absurd hnd (natDigits_ne_nil _)
      | cons c cs =>
        obtain ⟨d, hdv⟩ := Option.isSome_iff_exists.mp
          (natDigits_isSome _ c (hnd ▸ List.mem_cons_self c cs))
        obtain ⟨hws, -, -, -, -, -, -, -, hrb, hcb, -, -⟩ := digit_head_facts hdv
        refine ⟨c, cs, rfl, ?_⟩
        simp [goodHeadChar, hws, hrb, hcb]
  | bool b => cases b <;> exact ⟨_, _, rfl, by decide⟩
  | _ => exact ⟨_, _, rfl, by decide⟩

/-- `skipWs` leaves a serialized value untouched. -/
theorem skipWs_dump (j : Json) (r : List Char) :
    skipWs (j.dumpChars ++ r) = j.dumpChars ++ r := by
  obtain ⟨c, t, hd, hg⟩ := dump_head_facts j
  rw [hd, List.cons_append, skipWs_not_ws (goodHead_spec hg).1]

/-- Main round-trip invariant of the filter-state codec, proved by induction
on the parser fuel: parsing a serialized value (or serialized array elements
or object members, their closing delimiter appended) with enough fuel returns
exactly that value and the untouched continuation. -/
theorem parse_dump_triple : ∀ fuel : Nat,
    (∀ (j : Json) (rest : List Char), j.fsize ≤ fuel → nonDigitStart rest = true →
      parseValue fuel (j.dumpChars ++ rest) = some (j, rest)) ∧
    (∀ (xs : JsonList) (rest : List Char), xs.fsize ≤ fuel → xs ≠ .nil →
      parseItems fuel (JsonList.dumpChars xs ++ ']' :: rest) = some (xs, rest)) ∧
    (∀ (ms : JsonObj) (rest : List Char), ms.fsize ≤ fuel → ms ≠ .nil →
      parseMembers fuel (JsonObj.dumpChars ms ++ '}' :: rest) = some (ms, rest)) := by
  intro fuel
  induction fuel with
  | zero =>
    refine ⟨fun j rest hf _ => absurd hf (by have := Json.fsize_pos j; omega),
            fun xs rest hf hne => ?_, fun ms rest hf hne => ?_⟩
    · cases xs with
      | nil => exact absurd rfl hne
      | cons x tl => rw [JsonList.fsize] at hf; omega
    · cases ms with
      | nil => exact absurd rfl hne
      | cons k v tl => rw [JsonObj.fsize] at hf; omega
  | succ fuel ih =>
    obtain ⟨ihv, ihl, iho⟩ := ih
    refine ⟨?_, ?_, ?_⟩
    · -- one value
      intro j rest hf hr
      cases j with
      | null =>
        rw [Json.dumpChars]
        rw [show ("null" : String).data ++ rest
            = 'n' :: 'u' :: 'l' :: 'l' :: rest from rfl]
        rw [parseValue, skipWs_not_ws (by decide)]
        rw [parseValueDispatch, if_neg (by decide), if_neg (by decide)]
        rw [parseScalar, if_neg (by decide), if_pos rfl]
        rw [show ('u' :: 'l' :: 'l' :: rest : List Char)
            = ['u', 'l', 'l'] ++ rest from rfl]
        rw [dropLit_append, Option.map_some']
      | bool b =>
        cases b with
        | true =>
          rw [Json.dumpChars]
          rw [show ("true" : String).data ++ rest
              = 't' :: 'r' :: 'u' :: 'e' :: rest from rfl]
          rw [parseValue, skipWs_not_ws (by decide)]
          rw [parseValueDispatch, if_neg (by decide), if_neg (by decide)]
          rw [parseScalar, if_neg (by decide), if_neg (by decide), if_pos rfl]
          rw [show ('r' :: 'u' :: 'e' :: rest : List Char)
              = ['r', 'u', 'e'] ++ rest from rfl]
          rw [dropLit_append, Option.map_some']
        | false =>
          rw [Json.dumpChars]
          rw [show ("false" : String).data ++ rest
              = 'f' :: 'a' :: 'l' :: 's' :: 'e' :: rest from rfl]
          rw [parseValue, skipWs_not_ws (by decide)]
          rw [parseValueDispatch, if_neg (by decide), if_neg (by decide)]
          rw [parseScalar, if_neg (by decide), if_neg (by decide), if_neg (by decide),
            if_pos rfl]
          rw [show ('a' :: 'l' :: 's' :: 'e' :: rest : List Char)
              = ['a', 'l', 's', 'e'] ++ rest from rfl]
          rw [dropLit_append, Option.map_some']
      | num n =>
        rw [Json.dumpChars, intChars]
        by_cases hn : n < 0
        · rw [if_pos hn, List.cons_append]
          rw [parseValue, skipWs_not_ws (by decide)]
          rw [parseValueDispatch, if_neg (by decide), if_neg (by decide)]
          rw [parseScalar, if_neg (by decide), if_neg (by decide), if_neg (by decide),
            if_neg (by decide), if_pos rfl]
          rw [parseNat_natDigits n.natAbs rest hr, Option.map_some']
          have hval : -(n.natAbs : Int) = n := by omega
          rw [hval]
        · rw [if_neg hn]
          cases hnd : natDigits n.natAbs with
          | nil => exact absurd hnd (natDigits_ne_nil _)
          | cons c cs =>
            obtain ⟨d, hdv⟩ := Option.isSome_iff_exists.mp
              (natDigits_isSome _ c (hnd ▸ List.mem_cons_self c cs))
            obtain ⟨hws, hq, hlb, hcb, hnn, htt, hff, hmm, -, -, -, -⟩ :=
              digit_head_facts hdv
            rw [List.cons_append]
            rw [parseValue, skipWs_not_ws hws]
            rw [parseValueDispatch, if_neg hlb, if_neg hcb]
            rw [parseScalar, if_neg hq, if_neg hnn, if_neg htt, if_neg hff, if_neg hmm]
            rw [show c :: (cs ++ rest) = (c :: cs) ++ rest from rfl, ← hnd]
            rw [parseNat_natDigits n.natAbs rest hr, Option.map_some']
            have hval : ((n.natAbs : Nat) : Int) = n := by omega
            rw [hval]
      | str s =>
        rw [Json.dumpChars]
        rw [show ('"' :: (strBodyChars s ++ ['"'])) ++ rest
            = '"' :: (strBodyChars s ++ '"' :: rest) from by simp]
        rw [parseValue, skipWs_not_ws (by decide)]
        rw [parseValueDispatch, if_neg (by decide), if_neg (by decide)]
        rw [parseScalar, if_pos rfl]
        rw [parseJStr_strBody s rest, Option.map_some']
      | arr items =>
        cases items with
        | nil =>
          rw [Json.dumpChars, JsonList.dumpChars]
          rw [show ('[' :: (([] : List Char) ++ [']'])) ++ rest
              = '[' :: ']' :: rest from rfl]
          rw [parseValue, skipWs_not_ws (by decide)]
          rw [parseValueDispatch, if_pos rfl]
          rw [skipWs_not_ws (by decide)]
          rw [parseArrBody, if_pos rfl]
        | cons x tl =>
          rw [Json.dumpChars, dumpListChars_cons]
          rw [show ('[' :: ((Json.dumpChars x ++ JsonList.dumpSep tl) ++ [']'])) ++ rest
              = '[' :: (Json.dumpChars x ++ (JsonList.dumpSep tl ++ ']' :: rest))
              from by simp]
          rw [parseValue, skipWs_not_ws (by decide)]
          rw [parseValueDispatch, if_pos rfl]
          obtain ⟨c, t, hd, hg⟩ := dump_head_facts x
          obtain ⟨hws, hrb, -⟩ := goodHead_spec hg
          rw [hd, List.cons_append, skipWs_not_ws hws]
          rw [parseArrBody, if_neg hrb]
          rw [show c :: (t ++ (JsonList.dumpSep tl ++ ']' :: rest))
              = (c :: t) ++ (JsonList.dumpSep tl ++ ']' :: rest) from rfl, ← hd]
          rw [← List.append_assoc, ← dumpListChars_cons]
          have hfx : JsonList.fsize (JsonList.cons x tl) ≤ fuel := by
            rw [Json.fsize] at hf
            omega
          rw [ihl (JsonList.cons x tl) rest hfx (fun h => JsonList.noConfusion h),
            Option.map_some']
      | obj members =>
        cases members with
        | nil =>
          rw [Json.dumpChars, JsonObj.dumpChars]
          rw [show ('{' :: (([] : List Char) ++ ['}'])) ++ rest
              = '{' :: '}' :: rest from rfl]
          rw [parseValue, skipWs_not_ws (by decide)]
          rw [parseValueDispatch, if_neg (by decide), if_pos rfl]
          rw [skipWs_not_ws (by decide)]
          rw [parseObjBody, if_pos rfl]
        | cons k v tl =>
          rw [Json.dumpChars, dumpObjChars_cons]
          rw [show ('{' :: (('"' :: (strBodyChars k ++ '"' :: ':' :: ' ' ::
                (Json.dumpChars v ++ JsonObj.dumpSep tl))) ++ ['}'])) ++ rest
              = '{' :: '"' :: (strBodyChars k ++ '"' :: ':' :: ' ' ::
                (Json.dumpChars v ++ (JsonObj.dumpSep tl ++ '}' :: rest)))
              from by simp]
          rw [parseValue, skipWs_not_ws (by decide)]
          rw [parseValueDispatch, if_neg (by decide), if_pos rfl]
          rw [skipWs_not_ws (by decide)]
          rw [parseObjBody, if_neg (by decide)]
          rw [show ('"' :: (strBodyChars k ++ '"' :: ':' :: ' ' ::
                (Json.dumpChars v ++ (JsonObj.dumpSep tl ++ '}' :: rest))))
              = JsonObj.dumpChars (JsonObj.cons k v tl) ++ '}' :: rest
              from by rw [dumpObjChars_cons]; simp]
          have hfm : JsonObj.fsize (JsonObj.cons k v tl) ≤ fuel := by
            rw [Json.fsize] at hf
            omega
          rw [iho (JsonObj.cons k v tl) rest hfm (fun h => JsonObj.noConfusion h),
            Option.map_some']
    · -- elements of a nonempty array
      intro xs rest hf hne
      cases xs with
      | nil => exact absurd rfl hne
      | cons x tl =>
        rw [dumpListChars_cons, List.append_assoc]
        rw [parseItems]
        have hndSep : nonDigitStart (JsonList.dumpSep tl ++ ']' :: rest) = true := by
          cases tl with
          | nil => rw [JsonList.dumpSep, List.nil_append, nonDigitStart_cons]; decide
          | cons y tl2 => rw [dumpListSep_cons, List.cons_append, nonDigitStart_cons]; decide
        have hfx : Json.fsize x ≤ fuel := by
          rw [JsonList.fsize] at hf
          omega
        rw [ihv x _ hfx hndSep, Option.some_bind]
        cases tl with
        | nil =>
          rw [JsonList.dumpSep, List.nil_append, skipWs_not_ws (by decide)]
          rw [parseItemsTail, if_neg (by decide), if_pos rfl]
        | cons y tl2 =>
          rw [dumpListSep_cons, List.cons_append, List.cons_append]
          rw [skipWs_not_ws (by decide)]
          rw [parseItemsTail, if_pos rfl]
          rw [skipWs_ws (by decide), List.append_assoc, skipWs_dump y]
          rw [← List.append_assoc, ← dumpListChars_cons]
          have hftl : JsonList.fsize (JsonList.cons y tl2) ≤ fuel := by
            rw [JsonList.fsize] at hf
            have := Json.fsize_pos x
            omega
          rw [ihl (JsonList.cons y tl2) rest hftl (fun h => JsonList.noConfusion h),
            Option.map_some']
    · -- members of a nonempty object
      intro ms rest hf hne
      cases ms with
      | nil => exact absurd rfl hne
      | cons k v tl =>
        rw [dumpObjChars_cons]
        rw [show ('"' :: (strBodyChars k ++ '"' :: ':' :: ' ' ::
              (Json.dumpChars v ++ JsonObj.dumpSep tl))) ++ '}' :: rest
            = '"' :: (strBodyChars k ++ '"' :: ':' :: ' ' ::
              (Json.dumpChars v ++ (JsonObj.dumpSep tl ++ '}' :: rest)))
            from by simp]
        rw [parseMembers]
        rw [parseKeyColon, if_pos rfl]
        rw [parseJStr_strBody k _, Option.some_bind]
        rw [skipWs_not_ws (by decide)]
        rw [expectColon, if_pos rfl, Option.map_some', Option.some_bind]
        rw [skipWs_ws (by decide), skipWs_dump v]
        have hndSep : nonDigitStart (JsonObj.dumpSep tl ++ '}' :: rest) = true := by
          cases tl with
          | nil => rw [JsonObj.dumpSep, List.nil_append, nonDigitStart_cons]; decide
          | cons k2 v2 tl2 =>
            rw [dumpObjSep_cons, List.cons_append, nonDigitStart_cons]; decide
        have hfv : Json.fsize v ≤ fuel := by
          rw [JsonObj.fsize] at hf
          omega
        rw [ihv v _ hfv hndSep, Option.some_bind]
        cases tl with
        | nil =>
          rw [JsonObj.dumpSep, List.nil_append, skipWs_not_ws (by decide)]
          rw [parseMembersTail, if_neg (by decide), if_pos rfl]
        | cons k2 v2 tl2 =>
          rw [dumpObjSep_cons, List.cons_append, List.cons_append]
          rw [skipWs_not_ws (by decide)]
          rw [parseMembersTail, if_pos rfl]
          rw [skipWs_ws (by decide), List.cons_append, skipWs_not_ws (by decide)]
          rw [show '"' :: ((strBodyChars k2 ++ '"' :: ':' :: ' ' ::
                (Json.dumpChars v2 ++ JsonObj.dumpSep tl2)) ++ '}' :: rest)
              = JsonObj.dumpChars (JsonObj.cons k2 v2 tl2) ++ '}' :: rest
              from by rw [dumpObjChars_cons]; simp]
          have hftl : JsonObj.fsize (JsonObj.cons k2 v2 tl2) ≤ fuel := by
            rw [JsonObj.fsize] at hf
            have := Json.fsize_pos v
            omega
          rw [iho (JsonObj.cons k2 v2 tl2) rest hftl (fun h => JsonObj.noConfusion h),
            Option.map_some']

theorem intChars_ne_nil (n : Int) : intChars n ≠ [] := by
  rw [intChars]
  split
  · simp
  · exact natDigits_ne_nil _

mutual

theorem Json.fsize_le : ∀ j : Json, j.fsize ≤ j.dumpChars.length
  | .null => by simp [Json.fsize, Json.dumpChars]
  | .bool b => by cases b <;> simp [Json.fsize, Json.dumpChars]
  | .num n => by
    have h := List.length_pos.mpr (intChars_ne_nil n)
    rw [Json.fsize, Json.dumpChars]
    omega
  | .str s => by
    rw [Json.fsize, Json.dumpChars]
    simp
  | .arr items => by
    have h := fsizeList_le_dump items
    rw [Json.fsize, Json.dumpChars]
    simp only [List.length_cons, List.length_append, List.length_singleton]
    omega
  | .obj members => by
    have h := fsizeObj_le_dump members
    rw [Json.fsize, Json.dumpChars]
    simp only [List.length_cons, List.length_append, List.length_singleton]
    omega

theorem fsizeList_le_dump : ∀ xs : JsonList,
    JsonList.fsize xs ≤ (JsonList.dumpChars xs).length + 1
  | .nil => by simp [JsonList.fsize, JsonList.dumpChars]
  | .cons x tl => by
    have h1 := Json.fsize_le x
    have h2 := fsizeList_le_sep tl
    rw [JsonList.fsize, dumpListChars_cons]
    simp only [List.length_append]
    omega

theorem fsizeList_le_sep : ∀ xs : JsonList,
    JsonList.fsize xs ≤ (JsonList.dumpSep xs).length
  | .nil => by simp [JsonList.fsize, JsonList.dumpSep]
  | .cons y tl => by
    have h1 := Json.fsize_le y
    have h2 := fsizeList_le_sep tl
    rw [JsonList.fsize, dumpListSep_cons]
    simp only [List.length_cons, List.length_append]
    omega

theorem fsizeObj_le_dump : ∀ ms : JsonObj,
    JsonObj.fsize ms ≤ (JsonObj.dumpChars ms).length + 1
  | .nil => by simp [JsonObj.fsize, JsonObj.dumpChars]
  | .cons k v tl => by
    have h1 := Json.fsize_le v
    have h2 := fsizeObj_le_sep tl
    rw [JsonObj.fsize, dumpObjChars_cons]
    simp only [List.length_cons, List.length_append]
    omega

theorem fsizeObj_le_sep : ∀ ms : JsonObj,
    JsonObj.fsize ms ≤ (JsonObj.dumpSep ms).length
  | .nil => by simp [JsonObj.fsize, JsonObj.dumpSep]
  | .cons k v tl => by
    have h1 := Json.fsize_le v
    have h2 := fsizeObj_le_sep tl
    rw [JsonObj.fsize, dumpObjSep_cons]
    simp only [List.length_cons, List.length_append]
    omega

end

/-- The codec round trip at the JSON level: decoding a serialized value
recovers it exactly. -/
theorem Json.loads_dumps (j : Json) : Json.loads (Json.dumps j) = some j := by
  have h := (parse_dump_triple ((Json.dumpChars j).length + 1)).1 j []
    (le_trans (Json.fsize_le j) (by omega)) rfl
  rw [List.append_nil] at h
  unfold Json.loads Json.dumps loadsChars
  rw [show (String.mk j.dumpChars).data = j.dumpChars from rfl]
  rw [h]
  simp only [Option.some_bind]
  rw [if_pos (by rw [skipWs])]

theorem dumpChars_ne_nil (j : Json) : j.dumpChars ≠ [] := by
  obtain ⟨c, t, hd, -⟩ := dump_head_facts j
  rw [hd]
  simp

theorem dumps_ne_empty (j : Json) : Json.dumps j ≠ "" := by
  intro h
  have hd : j.dumpChars = [] := congrArg String.data h
  exact dumpChars_ne_nil j hd

/-- Claim C1: encoding well-formed filter criteria into the q parameter and
decoding the parameter on the next index request round-trips; an absent q
decodes to the empty criteria. -/
theorem claim_C1_codec_roundtrip :
    (∀ xs : JsonList,
      get_filters (form_valid_qparam (Json.arr xs)) = .ok (Json.arr xs)) ∧
    get_filters none = .ok (Json.arr .nil) := by
  constructor
  · intro xs
    rw [form_valid_qparam, form_valid_qtoken, get_filters, filterFormCleanQ,
      if_neg (dumps_ne_empty _), Json.loads_dumps, loadsToCleaned, cleanedToFilters]
    cases xs with
    | nil => rw [if_neg (by rw [Json.truthy]; exact Bool.false_ne_true)]
    | cons x tl => rw [if_pos (by rw [Json.truthy])]
  · rw [get_filters, filterFormCleanQ, cleanedToFilters]

/-- Claim C2 counterexample: the success URL built for the empty criteria
still carries a q parameter (the urlencoded serialization of the empty
criteria is never the empty string), on both success-URL paths. -/
theorem claim_C2_counterexample :
    form_valid_url "/attack/technique/" (Json.arr .nil)
      = "/attack/technique/?q=%5B%5D" ∧
    form_valid_url "/attack/technique/" (Json.arr .nil)
      ≠ "/attack/technique/" ∧
    flat_get_success_url "/attack/technique/" (Json.arr .nil)
      = "/attack/technique/?q=%5B%5D" := by
  refine ⟨by decide, by decide, by decide⟩

/-- Claim C2 amended: encoding empty criteria still yields a q parameter
(the serialized token is never empty, so the querystring guard never
strips it); the success URL always carries the encoded criteria. -/
theorem claim_C2_amended :
    ∀ (index_url : String) (criteria : Json),
      form_valid_querystring criteria ≠ "" ∧
      form_valid_url index_url criteria
        = index_url ++ "?" ++ form_valid_querystring criteria := by
  intro u c
  have hne : form_valid_querystring c ≠ "" := by
    rw [form_valid_querystring]
    intro h
    have hlen := congrArg String.length h
    rw [String.length_append] at hlen
    have h2 : ("q=" : String).length = 2 := by decide
    rw [h2] at hlen
    simp at hlen
  exact ⟨hne, by rw [form_valid_url, if_pos hne]⟩

theorem visible_mem {r : MitreRecord} {all : List MitreRecord}
    (h : r ∈ all.filter (fun x => !x.deprecated && !x.revoked)) :
    r.deprecated = false ∧ r.revoked = false := by
  have hb := (List.mem_filter.mp h).2
  simp only [Bool.and_eq_true, Bool.not_eq_true'] at hb
  exact hb

/-- Claim C3: the listing queryset never contains a deprecated or revoked
record; the detail lookup has no visibility restriction (a unique match is
returned whatever its flags); a revoked record's rendered title carries the
suffix marker. -/
theorem claim_C3_visibility :
    (∀ (all : List MitreRecord) (p : Option (MitreRecord → Bool))
        (q : Option String) (qs : List MitreRecord) (r : MitreRecord),
      get_queryset all p q = .ok qs → r ∈ qs →
        r.deprecated = false ∧ r.revoked = false) ∧
    (∀ (records : List MitreRecord) (slug : String) (r : MitreRecord),
      records.filter (fun x => x.mitre_id = slug) = [r] →
        detail_get_object records slug = .found r) ∧
    (∀ r : MitreRecord, r.revoked = true → get_title_suffix r = "[revoked]") ∧
    (∀ r : MitreRecord, r.revoked = false → get_title_suffix r = "") := by
  refine ⟨?_, ?_, ?_, ?_⟩
  · intro all p q qs r hq hm
    rw [get_queryset] at hq
    cases p with
    | none =>
      rw [filter_queryset] at hq
      injection hq with h
      subst h
      exact visible_mem hm
    | some pr =>
      rw [filter_queryset] at hq
      cases hg : get_filters q with
      | error e =>
        rw [hg, filtersToQueryset] at hq
        exact Except.noConfusion hq
      | ok fd =>
        rw [hg, filtersToQueryset] at hq
        injection hq with h
        subst h
        by_cases ht : fd.truthy
        · rw [if_pos ht] at hm
          exact visible_mem (List.mem_filter.mp hm).1
        · rw [if_neg ht] at hm
          exact visible_mem hm
  · intro records slug r h
    rw [detail_get_object, djangoGetBySlug, h, listToOutcome, retryIfMultiple]
  · intro r h
    rw [get_title_suffix, if_pos h]
  · intro r h
    rw [get_title_suffix, if_neg (by rw [h]; exact Bool.false_ne_true)]

/-- Claim C3 witness. -/
theorem claim_C3_visibility_witness :
    get_queryset [⟨"T1", "A", false, false⟩, ⟨"T2", "B", true, false⟩]
        none none = .ok [⟨"T1", "A", false, false⟩] ∧
    (⟨"T1", "A", false, false⟩ : MitreRecord) ∈ [(⟨"T1", "A", false, false⟩ : MitreRecord)] ∧
    (⟨"T1", "A", false, false⟩ : MitreRecord).deprecated = false ∧
    ([(⟨"T9", "R", false, true⟩ : MitreRecord)].filter
        (fun x => x.mitre_id = "T9") = [⟨"T9", "R", false, true⟩]) ∧
    detail_get_object [⟨"T9", "R", false, true⟩] "T9"
      = .found ⟨"T9", "R", false, true⟩ ∧
    get_title_suffix ⟨"T9", "R", false, true⟩ = "[revoked]" := by
  refine ⟨by decide, by decide, ?_, by decide, ?_, ?_⟩
  · exact (claim_C3_visibility.1 [⟨"T1", "A", false, false⟩, ⟨"T2", "B", true, false⟩]
      none none [⟨"T1", "A", false, false⟩] ⟨"T1", "A", false, false⟩
      (by decide) (by decide)).1
  · exact claim_C3_visibility.2.1 [⟨"T9", "R", false, true⟩] "T9"
      ⟨"T9", "R", false, true⟩ (by decide)
  · exact claim_C3_visibility.2.2.1 ⟨"T9", "R", false, true⟩ (by decide)

/-- Claim C4 counterexample: the directive `"name-"` is not a declared field
once only its leading descending-marker is stripped, yet the Listing Engine
applies it, because the code strips `"-"` from both ends. -/
theorem claim_C4_counterexample :
    get_ordering base_index_fields (some "name-") = some "name-" ∧
    ("name-" : String) ≠ "" ∧
    stripLeadingMarker "name-" ∉ base_index_fields := by
  refine ⟨by decide, by decide, by decide⟩

/-- Claim C4 amended: a nonempty sort directive is applied exactly when the
directive stripped of all leading and trailing descending-markers (Python
`strip("-")`) is a declared displayable field, and dropped otherwise; a
missing directive leaves the default order. -/
theorem claim_C4_amended :
    (∀ fields : List String, get_ordering fields none = none) ∧
    (∀ (fields : List String) (d : String), d ≠ "" →
      (get_ordering fields (some d) = some d ↔ pyStrip d ['-'] ∈ fields) ∧
      (get_ordering fields (some d) = none ↔ pyStrip d ['-'] ∉ fields)) := by
  constructor
  · intro fields
    rw [get_ordering]
  · intro fields d hd
    by_cases hm : pyStrip d ['-'] ∈ fields
    · rw [get_ordering, if_neg (fun hcon => hcon.2 hm)]
      exact ⟨⟨fun _ => hm, fun _ => rfl⟩,
        ⟨fun hcon => Option.noConfusion hcon, fun hcon => absurd hm hcon⟩⟩
    · rw [get_ordering, if_pos ⟨hd, hm⟩]
      exact ⟨⟨fun hcon => Option.noConfusion hcon, fun hmem => absurd hmem hm⟩,
        ⟨fun _ => hm, fun _ => rfl⟩⟩

/-- Claim C4 amended witness. -/
theorem claim_C4_amended_witness :
    ("-name" : String) ≠ "" ∧
    (get_ordering base_index_fields (some "-name") = some "-name" ↔
      pyStrip "-name" ['-'] ∈ base_index_fields) ∧
    ("bogus" : String) ≠ "" ∧
    (get_ordering base_index_fields (some "bogus") = none ↔
      pyStrip "bogus" ['-'] ∉ base_index_fields) := by
  refine ⟨by decide, (claim_C4_amended.2 base_index_fields "-name" (by decide)).1,
    by decide, (claim_C4_amended.2 base_index_fields "bogus" (by decide)).2⟩

/-- Claim C5: route composition fails fast when the views module or the
detail view class is missing, and succeeds with the generic listing view
and the synthesized filterset when the index view or the filters module
(or its filterset attribute) is absent. -/
theorem claim_C5_route_composition :
    (∀ (fields : List String) (fm : Option (Option String)),
      produce_paths_for_model fields ⟨fm, none⟩ = .error "Missing views module") ∧
    (∀ (fields : List String) (fm : Option (Option String)) (iv : Option String),
      produce_paths_for_model fields ⟨fm, some ⟨iv, none⟩⟩
        = .error "Missing detail view class") ∧
    (∀ (fields : List String) (d : String),
      produce_paths_for_model fields ⟨none, some ⟨none, some d⟩⟩
        = .ok ⟨.genericListing, d, .synthesized fields,
            ["index", "detail", "filter"]⟩) ∧
    (∀ (fields : List String) (d : String),
      produce_paths_for_model fields ⟨some none, some ⟨none, some d⟩⟩
        = .ok ⟨.genericListing, d, .synthesized fields,
            ["index", "detail", "filter"]⟩) ∧
    (∀ (fields : List String) (d fsName ivName : String),
      produce_paths_for_model fields ⟨some (some fsName), some ⟨some ivName, some d⟩⟩
        = .ok ⟨.custom ivName, d, .handAuthored fsName,
            ["index", "detail", "filter"]⟩) := by
  exact ⟨fun _ _ => rfl, fun _ _ _ => rfl, fun _ _ => rfl, fun _ _ => rfl,
    fun _ _ _ _ => rfl⟩

/-- Claim C6: a multiple-match detail lookup is retried exactly once
restricted to non-deprecated, non-revoked records (returning the unique
active record when one exists); the retry's own outcome, and an initial
not-found, propagate unchanged. -/
theorem claim_C6_detail_retry :
    (∀ (records : List MitreRecord) (slug : String),
      djangoGetBySlug records slug = .multiple →
      detail_get_object records slug
        = djangoGetBySlug
            (records.filter (fun r => !r.deprecated && !r.revoked)) slug) ∧
    (∀ (records : List MitreRecord) (slug : String),
      djangoGetBySlug records slug = .notFound →
      detail_get_object records slug = .notFound) ∧
    (∀ (records : List MitreRecord) (slug : String) (r : MitreRecord),
      djangoGetBySlug records slug = .multiple →
      (records.filter (fun x => !x.deprecated && !x.revoked)).filter
          (fun x => x.mitre_id = slug) = [r] →
      detail_get_object records slug = .found r) := by
  refine ⟨?_, ?_, ?_⟩
  · intro records slug h
    rw [detail_get_object, h, retryIfMultiple]
  · intro records slug h
    rw [detail_get_object, h, retryIfMultiple]
  · intro records slug r h h2
    rw [detail_get_object, h, retryIfMultiple, djangoGetBySlug, h2, listToOutcome]

/-- Claim C6 witness: identifier `T1566` matching one active and one revoked
record returns the active record. -/
theorem claim_C6_detail_retry_witness :
    djangoGetBySlug [⟨"T1566", "Phishing", false, false⟩,
        ⟨"T1566", "Old", false, true⟩] "T1566" = .multiple ∧
    detail_get_object [⟨"T1566", "Phishing", false, false⟩,
        ⟨"T1566", "Old", false, true⟩] "T1566"
      = .found ⟨"T1566", "Phishing", false, false⟩ := by
  refine ⟨by decide, ?_⟩
  exact claim_C6_detail_retry.2.2
    [⟨"T1566", "Phishing", false, false⟩, ⟨"T1566", "Old", false, true⟩]
    "T1566" ⟨"T1566", "Phishing", false, false⟩ (by decide) (by decide)

theorem get_filters_none : get_filters none = .ok (Json.arr .nil) := by
  rw [get_filters, filterFormCleanQ, cleanedToFilters]

theorem get_filters_empty : get_filters (some "") = .ok (Json.arr .nil) := by
  rw [get_filters, filterFormCleanQ, if_pos rfl, cleanedToFilters]

theorem get_filters_invalid {t : String} (h1 : t ≠ "") (h2 : Json.loads t = none) :
    get_filters (some t)
      = .error "Ran into form validation error? Invalid filter criteria token" := by
  rw [get_filters, filterFormCleanQ, if_neg h1, h2, loadsToCleaned, cleanedToFilters]
  decide

theorem arr_nil_not_truthy : ¬(Json.arr .nil).truthy = true := by
  rw [Json.truthy]
  exact Bool.false_ne_true

/-- The single letter x is not a well-formed criteria token. -/
theorem loads_x_none : Json.loads "x" = none := by
  rw [Json.loads, loadsChars]
  rw [show ("x" : String).data = ['x'] from rfl]
  rw [show (['x'] : List Char).length + 1 = 1 + 1 from rfl]
  rw [parseValue]
  rw [skipWs_not_ws (by decide)]
  rw [parseValueDispatch, if_neg (by decide), if_neg (by decide)]
  rfl

/-- Claim C7: a structurally invalid q token surfaces an error from the
Listing Engine instead of silently yielding unfiltered results, both at
decoding and through the filtering step; a missing or empty q decodes to the
empty criteria, which skips the filterset and passes the baseline collection
through unchanged. -/
theorem claim_C7_invalid_token :
    (∀ t : String, t ≠ "" → Json.loads t = none →
      get_filters (some t)
        = .error "Ran into form validation error? Invalid filter criteria token") ∧
    get_filters none = .ok (Json.arr .nil) ∧
    get_filters (some "") = .ok (Json.arr .nil) ∧
    (∀ (p : MitreRecord → Bool) (qs : List MitreRecord),
      filter_queryset (some p) none qs = .ok qs) ∧
    (∀ (p : MitreRecord → Bool) (qs : List MitreRecord),
      filter_queryset (some p) (some "") qs = .ok qs) ∧
    (∀ (p : MitreRecord → Bool) (qs : List MitreRecord) (t : String),
      t ≠ "" → Json.loads t = none →
      filter_queryset (some p) (some t) qs
        = .error "Ran into form validation error? Invalid filter criteria token") := by
  refine ⟨fun t h1 h2 => get_filters_invalid h1 h2, get_filters_none,
    get_filters_empty, ?_, ?_, ?_⟩
  · intro p qs
    rw [filter_queryset, get_filters_none, filtersToQueryset,
      if_neg arr_nil_not_truthy]
  · intro p qs
    rw [filter_queryset, get_filters_empty, filtersToQueryset,
      if_neg arr_nil_not_truthy]
  · intro p qs t h1 h2
    rw [filter_queryset, get_filters_invalid h1 h2, filtersToQueryset]

/-- Claim C7 witness. -/
theorem claim_C7_invalid_token_witness :
    ("x" : String) ≠ "" ∧
    get_filters (some "x")
      = .error "Ran into form validation error? Invalid filter criteria token" ∧
    filter_queryset (some (fun _ => true)) (some "x") []
      = .error "Ran into form validation error? Invalid filter criteria token" := by
  refine ⟨by decide, claim_C7_invalid_token.1 "x" (by decide) loads_x_none, ?_⟩
  exact claim_C7_invalid_token.2.2.2.2.2 (fun _ => true) [] "x"
    (by decide) loads_x_none

theorem dumps_arr_nil : Json.dumps (Json.arr .nil) = "[]" := by decide

/-- Claim C8 counterexample: the same valid criteria submitted via GET is
rendered, not redirected, while via POST it redirects — the two transports
are not handled identically. -/
theorem claim_C8_counterexample :
    filterView_handle "/attack/technique/" ⟨.get, some "[]", none⟩
      = .render true ∧
    filterView_handle "/attack/technique/" ⟨.post, none, some "[]"⟩
      = .redirect "/attack/technique/?q=%5B%5D" := by
  have hclean : filterFormCleanQ (some "[]") = .ok (some (Json.arr .nil)) := by
    rw [filterFormCleanQ, if_neg (by decide), ← dumps_arr_nil, Json.loads_dumps,
      loadsToCleaned]
  constructor
  · rw [filterView_handle, hclean, cleanOk]
  · rw [filterView_handle, hclean, postOutcome, cleanedCriteria]
    decide

/-- Claim C8 amended: criteria data binds from GET and POST alike, but only
POST runs the validate-and-redirect flow: a valid POST redirects to the
index endpoint with the re-encoded q parameter, an invalid POST re-renders
with errors, and a GET renders the bound form (its validity exposed) and
never redirects. -/
theorem claim_C8_amended :
    (∀ g p : Option String,
      filterView_form_data ⟨.get, g, p⟩ = g ∧
      filterView_form_data ⟨.post, g, p⟩ = p) ∧
    (∀ (url : String) (g p : Option String),
      filterView_handle url ⟨.get, g, p⟩
        = .render (cleanOk (filterFormCleanQ g))) ∧
    (∀ (url : String) (g p : Option String) (c : Option Json),
      filterFormCleanQ p = .ok c →
      filterView_handle url ⟨.post, g, p⟩
        = .redirect (form_valid_url url (cleanedCriteria c))) ∧
    (∀ (url : String) (g p : Option String) (e : String),
      filterFormCleanQ p = .error e →
      filterView_handle url ⟨.post, g, p⟩ = .render false) := by
  refine ⟨fun g p => ⟨rfl, rfl⟩, fun url g p => rfl, ?_, ?_⟩
  · intro url g p c h
    rw [filterView_handle, h, postOutcome]
  · intro url g p e h
    rw [filterView_handle, h, postOutcome]

/-- Claim C8 amended witness. -/
theorem claim_C8_amended_witness :
    filterFormCleanQ (some "[]") = .ok (some (Json.arr .nil)) ∧
    filterView_handle "/attack/technique/" ⟨.post, none, some "[]"⟩
      = .redirect (form_valid_url "/attack/technique/"
          (cleanedCriteria (some (Json.arr .nil)))) ∧
    filterFormCleanQ (some "x") = .error "Invalid filter criteria token" ∧
    filterView_handle "/attack/technique/" ⟨.post, none, some "x"⟩
      = .render false := by
  have hclean : filterFormCleanQ (some "[]") = .ok (some (Json.arr .nil)) := by
    rw [filterFormCleanQ, if_neg (by decide), ← dumps_arr_nil, Json.loads_dumps,
      loadsToCleaned]
  have hbad : filterFormCleanQ (some "x") = .error "Invalid filter criteria token" := by
    rw [filterFormCleanQ, if_neg (by decide), loads_x_none, loadsToCleaned]
  exact ⟨hclean,
    claim_C8_amended.2.2.1 "/attack/technique/" none (some "[]")
      (some (Json.arr .nil)) hclean,
    hbad,
    claim_C8_amended.2.2.2 "/attack/technique/" none (some "x")
      "Invalid filter criteria token" hbad⟩

/-- Claim C9 counterexample: the free-form identifier Ds0001 matches the
data-source scheme, but the endpoint's canonicalization only uppercases a
leading lowercase run, so the redirect target is not the identifier with its
leading alphabetic run uppercased. -/
theorem claim_C9_counterexample :
    redirect_by_id "Ds0001" = .redirect .dataSource "Ds0001" ∧
    upperLeadingAlphaRun "Ds0001" = "DS0001" ∧
    ("Ds0001" : String) ≠ "DS0001" := by
  refine ⟨by decide, by decide, by decide⟩

/-- Claim C9 amended: an identifier matching no scheme yields a client error
and no redirect; a matching identifier is redirected to its entity's detail
endpoint with the leading run of lowercase letters (at most two characters)
uppercased — fully-lowercase or already-uppercase prefixes are thereby
canonicalized, while a prefix mixing an uppercase letter before a lowercase
one passes through unchanged. -/
theorem claim_C9_amended :
    (∀ id : String, get_model_by_id id = none →
      redirect_by_id id = .badRequest "No model found for this id scheme") ∧
    (∀ (id : String) (m : AttackModel), get_model_by_id id = some m →
      redirect_by_id id = .redirect m (upperLeadingLower id)) ∧
    upperLeadingLower "t1566" = "T1566" ∧
    upperLeadingLower "t1566.001" = "T1566.001" ∧
    upperLeadingLower "ds0001" = "DS0001" ∧
    upperLeadingLower "ta0001" = "TA0001" ∧
    upperLeadingLower "T1566" = "T1566" := by
  refine ⟨?_, ?_, by decide, by decide, by decide, by decide, by decide⟩
  · intro id h
    rw [redirect_by_id, h, modelToResponse]
  · intro id m h
    rw [redirect_by_id, h, modelToResponse]

/-- Claim C9 amended witness: X9999 matches no scheme and gets a client
error; t1566 matches the technique scheme and is redirected canonicalized. -/
theorem claim_C9_amended_witness :
    get_model_by_id "X9999" = none ∧
    redirect_by_id "X9999" = .badRequest "No model found for this id scheme" ∧
    get_model_by_id "t1566" = some .technique ∧
    redirect_by_id "t1566" = .redirect .technique (upperLeadingLower "t1566") := by
  refine ⟨by decide, claim_C9_amended.1 "X9999" (by decide), by decide,
    claim_C9_amended.2.1 "t1566" .technique (by decide)⟩

/-- Claim C10: constructing the generic listing view raises a `TypeError`
exactly when the model, or the filterset class, is provided neither on the
view class nor among the initialization keyword arguments; a successful
construction therefore has both provided. -/
theorem claim_C10_as_view :
    (∀ (cls : IndexViewClass) (kw : InitKwargs),
      (∃ e, index_as_view cls kw = .error e) ↔
        ((cls.model = none ∧ kw.model = none) ∨
         (cls.filterset_class = none ∧ kw.filterset_class = none))) ∧
    (∀ (cls : IndexViewClass) (kw : InitKwargs) (v : IndexViewClass),
      index_as_view cls kw = .ok v →
        (cls.model ≠ none ∨ kw.model ≠ none) ∧
        (cls.filterset_class ≠ none ∨ kw.filterset_class ≠ none)) := by
  constructor
  · intro cls kw
    by_cases h1 : cls.model = none ∧ kw.model = none
    · rw [index_as_view, if_pos h1]
      exact ⟨fun _ => Or.inl h1, fun _ => ⟨_, rfl⟩⟩
    · by_cases h2 : cls.filterset_class = none ∧ kw.filterset_class = none
      · rw [index_as_view, if_neg h1, if_pos h2]
        exact ⟨fun _ => Or.inr h2, fun _ => ⟨_, rfl⟩⟩
      · rw [index_as_view, if_neg h1, if_neg h2]
        exact ⟨fun hcon => Except.noConfusion hcon.choose_spec,
          fun hor => absurd hor (by simp [h1, h2])⟩
  · intro cls kw v h
    by_cases h1 : cls.model = none ∧ kw.model = none
    · rw [index_as_view, if_pos h1] at h
      exact Except.noConfusion h
    · by_cases h2 : cls.filterset_class = none ∧ kw.filterset_class = none
      · rw [index_as_view, if_neg h1, if_pos h2] at h
        exact Except.noConfusion h
      · exact ⟨not_and_or.mp h1, not_and_or.mp h2⟩

/-- Claim C10 witness. -/
theorem claim_C10_as_view_witness :
    (∃ e, index_as_view ⟨none, some "TechniqueFilterSet"⟩ ⟨none, none⟩
      = .error e) ∧
    index_as_view ⟨none, none⟩
        ⟨some (some "Technique"), some (some "TechniqueFilterSet")⟩
      = .ok ⟨some "Technique", some "TechniqueFilterSet"⟩ ∧
    ((some "Technique" : Option String) ≠ none ∨
      (some (some "Technique") : Option (Option String)) ≠ none) := by
  refine ⟨(claim_C10_as_view.1 ⟨none, some "TechniqueFilterSet"⟩ ⟨none, none⟩).mpr
      (Or.inl ⟨rfl, rfl⟩), by decide, ?_⟩
  exact ((claim_C10_as_view.2 ⟨none, none⟩
    ⟨some (some "Technique"), some (some "TechniqueFilterSet")⟩
    ⟨some "Technique", some "TechniqueFilterSet"⟩ (by decide)).1).imp
      (fun h => by decide) (fun h => by decide)

end DjangoMitre
